import Mathlib

/-!
Shallow embedding of the Retrotrade stock analysis and backtest engine
(`src/bnd/main.py`) together with theorems settling the specification
claims.  Prices, cash amounts and indicator values are modelled as
rationals; Python float `NaN`/`inf` behaviour at the few places where it
is observable (`calculate_rsi`'s final `isna` read) is translated
explicitly and documented at the definition.
-/

namespace Retrotrade

/-- Truncation toward zero, the behaviour of Python `int()` applied to a
(real-valued) quotient.  For a nonnegative argument it agrees with `⌊·⌋`. -/
def truncQ (q : ℚ) : ℤ :=
  if 0 ≤ q then ⌊q⌋ else -⌊-q⌋

theorem truncQ_of_nonneg (q : ℚ) (h : 0 ≤ q) : truncQ q = ⌊q⌋ := by
  simp [truncQ, h]

/-! ### `calculate_rsi` (main.py lines 459–468)

`delta = pd.Series(prices).diff()` produces `NaN` at index 0; the
subsequent `delta.where(delta > 0, 0)` turns that `NaN` into `0`
(`NaN > 0` is false), so the delta list is embedded with a leading `0`. -/

/-- The per-index deltas of `pd.Series(prices).diff()` after the
`where` substitution replaced the index-0 `NaN` by `0`. -/
def priceDeltas : List ℚ → List ℚ
  | [] => []
  | p :: rest => 0 :: List.zipWith (fun a b => a - b) rest (p :: rest)

/-- `(delta.where(delta > 0, 0))`: positive deltas, zero elsewhere. -/
def rsiGains (prices : List ℚ) : List ℚ :=
  (priceDeltas prices).map (fun d => if 0 < d then d else 0)

/-- `(-delta.where(delta < 0, 0))`: magnitudes of negative deltas, zero elsewhere. -/
def rsiLosses (prices : List ℚ) : List ℚ :=
  (priceDeltas prices).map (fun d => if d < 0 then -d else 0)

/-- The last entry of `series.rolling(window=w).mean()`: defined exactly
when the series has at least `w` observations (pandas default
`min_periods = window`), and then equal to the mean of the last `w`. -/
def rollingMeanLast (w : ℕ) (xs : List ℚ) : Option ℚ :=
  if w = 0 ∨ xs.length < w then none
  else some ((xs.drop (xs.length - w)).sum / w)

/-- Embedding of `calculate_rsi(prices, window)`.

The source computes `rs = gain/loss; rsi = 100 - (100 / (1 + rs))` in
floats and returns `rsi.iloc[-1]` unless it `isna`, in which case `50.0`.
The float cases at the final read are translated branch by branch:
* insufficient history (`rolling` yields `NaN`, or any exception on an
  empty series) — `NaN` → fallback `50`;
* `loss = 0` and `gain = 0` — `rs = 0/0 = NaN` → `rsi = NaN` → `50`;
* `loss = 0` and `gain > 0` — `rs = gain/0 = +inf` → `rsi = 100 - 0 = 100`
  (not `NaN`, so the fallback does NOT trigger);
* `loss > 0` — the ordinary formula. -/
def calculate_rsi (prices : List ℚ) (window : ℕ) : ℚ :=
  match rollingMeanLast window (rsiGains prices),
        rollingMeanLast window (rsiLosses prices) with
  | some g, some l =>
      if l = 0 then (if g = 0 then 50 else 100)
      else 100 - 100 / (1 + g / l)
  | _, _ => 50

theorem length_priceDeltas (prices : List ℚ) :
    (priceDeltas prices).length = prices.length := by
  cases prices with
  | nil => rfl
  | cons p rest =>
      simp [priceDeltas, List.length_zipWith]

theorem length_rsiGains (prices : List ℚ) :
    (rsiGains prices).length = prices.length := by
  simp [rsiGains, length_priceDeltas]

theorem length_rsiLosses (prices : List ℚ) :
    (rsiLosses prices).length = prices.length := by
  simp [rsiLosses, length_priceDeltas]

/-- On a constant price list every embedded delta is zero. -/
theorem priceDeltas_constant (prices : List ℚ) (c : ℚ)
    (h : ∀ p ∈ prices, p = c) :
    ∀ x ∈ priceDeltas prices, x = 0 := by
  cases prices with
  | nil => intro x hx; simp [priceDeltas] at hx
  | cons p rest =>
      intro x hx
      simp only [priceDeltas, List.mem_cons] at hx
      rcases hx with hx0 | hxz
      · exact hx0
      · rcases List.mem_iff_getElem.mp hxz with ⟨i, hi, hget⟩
        rw [List.getElem_zipWith] at hget
        have hlen : i < rest.length := by
          simpa [List.length_zipWith] using hi
        have h1 : rest[i] = c :=
          h _ (List.mem_cons_of_mem _ (rest.getElem_mem hlen))
        have hlen2 : i < (p :: rest).length := by
          simp; omega
        have h2 : (p :: rest)[i] = c :=
          h _ ((p :: rest).getElem_mem hlen2)
        rw [← hget, h1, h2, sub_self]

theorem rollingMeanLast_zero (w : ℕ) (xs : List ℚ)
    (h : ∀ x ∈ xs, x = 0) :
    rollingMeanLast w xs = none ∨ rollingMeanLast w xs = some 0 := by
  unfold rollingMeanLast
  by_cases hc : w = 0 ∨ xs.length < w
  · left; simp [hc]
  · right
    have hsum : (xs.drop (xs.length - w)).sum = 0 :=
      List.sum_eq_zero (fun x hx => h x (List.drop_subset _ _ hx))
    simp [hc, hsum]

/-- C2 (amended): `calculate_rsi` returns the neutral 50.0 when (a) there
are fewer than `window` bars of history, or (b) both the trailing average
gain and the trailing average loss are zero — in particular on every
constant price series.  (When the average loss is zero but the average
gain is positive the function returns 100, not 50; see the
counterexample.) -/
theorem calculate_rsi_neutral (prices : List ℚ) (w : ℕ) :
    (prices.length < w → calculate_rsi prices w = 50) ∧
    (rollingMeanLast w (rsiGains prices) = some 0 →
      rollingMeanLast w (rsiLosses prices) = some 0 →
      calculate_rsi prices w = 50) ∧
    (∀ c : ℚ, (∀ p ∈ prices, p = c) → calculate_rsi prices w = 50) := by
  refine ⟨?_, ?_, ?_⟩
  · intro hlen
    have hg : rollingMeanLast w (rsiGains prices) = none := by
      unfold rollingMeanLast
      simp [length_rsiGains, hlen]
    unfold calculate_rsi
    rw [hg]
  · intro hg hl
    unfold calculate_rsi
    rw [hg, hl]
    simp
  · intro c hc
    have hall : ∀ x ∈ priceDeltas prices, x = 0 :=
      priceDeltas_constant prices c hc
    have hgz : ∀ x ∈ rsiGains prices, x = 0 := by
      intro x hx
      rcases List.mem_map.mp hx with ⟨d, hd, hdx⟩
      rw [hall d hd] at hdx
      simpa using hdx.symm
    have hlz : ∀ x ∈ rsiLosses prices, x = 0 := by
      intro x hx
      rcases List.mem_map.mp hx with ⟨d, hd, hdx⟩
      rw [hall d hd] at hdx
      simpa using hdx.symm
    rcases rollingMeanLast_zero w _ hgz with hg | hg <;>
      rcases rollingMeanLast_zero w _ hlz with hl | hl <;>
        simp [calculate_rsi, hg, hl]

/-- Witness for `calculate_rsi_neutral`: a 3-bar constant series is below
any 14-bar window (clause (a)), and with window 2 the constant-series
clause (c) fires with sufficient history. -/
theorem calculate_rsi_neutral_witness :
    (([5, 5, 5] : List ℚ).length < 14 ∧ calculate_rsi [5, 5, 5] 14 = 50) ∧
    calculate_rsi [5, 5, 5] 2 = 50 :=
  ⟨⟨by simp, (calculate_rsi_neutral [5, 5, 5] 14).1 (by simp)⟩,
    (calculate_rsi_neutral [5, 5, 5] 2).2.2 5 (by
      intro p hp
      simp at hp
      simp [hp])⟩

/-- A strictly increasing 16-bar price series (more than period+1 = 15
bars of history): the trailing average loss over the 14-bar window is 0,
yet `calculate_rsi` returns 100, not the neutral 50 the claim states
(`rs = gain/0 = +inf` in floats, so `rsi = 100` and the `isna` fallback
never fires). -/
theorem calculate_rsi_avgLoss_zero_counterexample :
    rollingMeanLast 14
        (rsiLosses [1, 2, 3, 4, 5, 6, 7, 8, 9, 10, 11, 12, 13, 14, 15, 16]) =
      some 0 ∧
    ([1, 2, 3, 4, 5, 6, 7, 8, 9, 10, 11, 12, 13, 14, 15, 16] : List ℚ).length =
      16 ∧
    calculate_rsi [1, 2, 3, 4, 5, 6, 7, 8, 9, 10, 11, 12, 13, 14, 15, 16] 14 =
      100 := by
  refine ⟨?_, by simp, ?_⟩ <;>
    norm_num [calculate_rsi, rollingMeanLast, rsiGains, rsiLosses, priceDeltas]

/-! ### MACD crossover strategies (main.py lines 221–255 and 345–398)

The MACD and signal lines themselves come from `bt.indicators.MACD`
(external library); they are modelled as the per-bar history lists
handed to the decision code, last entry = current bar (`[0]` in
backtrader), second-to-last = previous bar (`[-1]`). -/

/-- An order submission: `self.buy(...)` or `self.sell(...)`. -/
inductive Side
  | buy
  | sell
deriving DecidableEq

/-- `MACDStrategy.next` (single-instrument variant, lines 239–247).
The body has no explicit bar-count guard; backtrader only invokes `next`
once the indicator's minimum period is reached.  Modelled from the spec
for that framework gating: "No action if fewer than 2 bars available" —
with fewer than two entries of history no order is emitted. -/
def MACDStrategy.next (macdHist sigHist : List ℚ) (inPosition : Bool) :
    Option Side :=
  if 2 ≤ macdHist.length ∧ 2 ≤ sigHist.length then
    let m0 := macdHist.getLastD 0
    let m1 := macdHist.dropLast.getLastD 0
    let s0 := sigHist.getLastD 0
    let s1 := sigHist.dropLast.getLastD 0
    if !inPosition then
      if s0 < m0 ∧ m1 ≤ s1 then some Side.buy else none
    else
      if m0 < s0 ∧ s1 ≤ m1 then some Side.sell else none
  else none

/-- `PortfolioMACDStrategy.next`, decision for one instrument `d`
(lines 370–389).  Here the guard `if len(d) > 1` is explicit in the
source; `len(d)` equals the length of the indicator history. -/
def PortfolioMACDStrategy.decideOrder (macdHist sigHist : List ℚ)
    (pos : ℕ) : Option Side :=
  if pos = 0 then
    if 1 < macdHist.length then
      if sigHist.getLastD 0 < macdHist.getLastD 0 ∧
          macdHist.dropLast.getLastD 0 ≤ sigHist.dropLast.getLastD 0 then
        some Side.buy
      else none
    else none
  else
    if 1 < macdHist.length then
      if macdHist.getLastD 0 < sigHist.getLastD 0 ∧
          sigHist.dropLast.getLastD 0 ≤ macdHist.dropLast.getLastD 0 then
        some Side.sell
      else none
    else none

/-- C3: with fewer than 2 bars of history neither MACD variant places an
order, whatever the indicator values and position state. -/
theorem macd_no_order_first_bar (macdHist sigHist : List ℚ)
    (inPosition : Bool) (pos : ℕ) (h : macdHist.length < 2) :
    MACDStrategy.next macdHist sigHist inPosition = none ∧
    PortfolioMACDStrategy.decideOrder macdHist sigHist pos = none := by
  constructor
  · unfold MACDStrategy.next
    rw [if_neg]
    omega
  · unfold PortfolioMACDStrategy.decideOrder
    have h1 : ¬ (1 < macdHist.length) := by omega
    by_cases hp : pos = 0 <;> simp [hp, h1]

/-- Witness for `macd_no_order_first_bar` on the very first bar
(one entry of history). -/
theorem macd_no_order_first_bar_witness :
    ([(3 : ℚ)].length < 2) ∧
    MACDStrategy.next [(3 : ℚ)] [(1 : ℚ)] false = none ∧
    PortfolioMACDStrategy.decideOrder [(3 : ℚ)] [(1 : ℚ)] 0 = none :=
  ⟨by simp, (macd_no_order_first_bar [3] [1] false 0 (by simp)).1,
    (macd_no_order_first_bar [3] [1] false 0 (by simp)).2⟩

/-! ### Trade classification (`notify_trade`, main.py lines 212–218,
249–255, 285–291, 335–342, 391–398, 447–454) -/

/-- The per-strategy trade counters. -/
structure TradeCounts where
  trade_count : ℕ
  winning_trades : ℕ
  losing_trades : ℕ
deriving DecidableEq

/-- `notify_trade(self, trade)` of the single-instrument strategies
(the body is identical in the RSI, MACD and VolumeSpike variants):
on a closed trade, `pnl > 0` increments the win counter, anything else
(including `pnl == 0`) increments the loss counter. -/
def notify_trade (c : TradeCounts) (isclosed : Bool) (pnl : ℚ) :
    TradeCounts :=
  if isclosed then
    { trade_count := c.trade_count + 1
      winning_trades :=
        if 0 < pnl then c.winning_trades + 1 else c.winning_trades
      losing_trades :=
        if 0 < pnl then c.losing_trades else c.losing_trades + 1 }
  else c

/-- The per-instrument counter dictionaries of the portfolio strategies. -/
structure PortfolioCounts where
  trade_counts : String → ℕ
  winning_trades : String → ℕ
  losing_trades : String → ℕ

/-- `notify_trade(self, trade)` of the portfolio strategies (the body is
identical in all three portfolio variants): the counters of
`trade.data._name` are updated exactly as in the single-instrument case. -/
def portfolio_notify_trade (c : PortfolioCounts) (isclosed : Bool)
    (name : String) (pnl : ℚ) : PortfolioCounts :=
  if isclosed then
    { trade_counts := fun n =>
        if n = name then c.trade_counts n + 1 else c.trade_counts n
      winning_trades := fun n =>
        if n = name then
          (if 0 < pnl then c.winning_trades n + 1 else c.winning_trades n)
        else c.winning_trades n
      losing_trades := fun n =>
        if n = name then
          (if 0 < pnl then c.losing_trades n else c.losing_trades n + 1)
        else c.losing_trades n }
  else c

/-- C6: every closed trade is counted as a win exactly when `pnl > 0`
and as a loss otherwise (so `pnl = 0` lands in the loss counter), in the
single-instrument and the portfolio strategy variants alike. -/
theorem closed_trade_classification (c : TradeCounts)
    (pc : PortfolioCounts) (name : String) (pnl : ℚ) :
    (notify_trade c true pnl).winning_trades =
      c.winning_trades + (if 0 < pnl then 1 else 0) ∧
    (notify_trade c true pnl).losing_trades =
      c.losing_trades + (if 0 < pnl then 0 else 1) ∧
    (notify_trade c true pnl).trade_count = c.trade_count + 1 ∧
    (portfolio_notify_trade pc true name pnl).winning_trades name =
      pc.winning_trades name + (if 0 < pnl then 1 else 0) ∧
    (portfolio_notify_trade pc true name pnl).losing_trades name =
      pc.losing_trades name + (if 0 < pnl then 0 else 1) ∧
    (portfolio_notify_trade pc true name pnl).trade_counts name =
      pc.trade_counts name + 1 := by
  by_cases h : 0 < pnl <;>
    simp [notify_trade, portfolio_notify_trade, h]

/-! ### Win rate (`run_portfolio_backtest`, main.py lines 969–972) -/

/-- `win_rate = (won_trades / total_trades * 100) if total_trades > 0 else 0`. -/
def winRate (won total : ℕ) : ℚ :=
  if 0 < total then (won : ℚ) / (total : ℚ) * 100 else 0

/-- C7: with at least one closed trade the win rate is
`won / total × 100` (equivalently `winRate × total = won × 100`), and
with zero closed trades it is exactly 0 — a number, not an error. -/
theorem winRate_spec (won total : ℕ) :
    (total = 0 → winRate won total = 0) ∧
    (0 < total → winRate won total = (won : ℚ) / (total : ℚ) * 100 ∧
      winRate won total * total = (won : ℚ) * 100) := by
  constructor
  · intro h
    simp [winRate, h]
  · intro h
    have ht : ((total : ℚ)) ≠ 0 := by
      exact_mod_cast Nat.pos_iff_ne_zero.mp h
    constructor
    · simp [winRate, h]
    · rw [winRate, if_pos h]
      field_simp

/-- Witness for `winRate_spec`: 1 win out of 2 closed trades is a 50%
win rate, and zero closed trades give 0. -/
theorem winRate_spec_witness :
    winRate 3 0 = 0 ∧ winRate 1 2 = (1 : ℚ) / 2 * 100 :=
  ⟨(winRate_spec 3 0).1 rfl, ((winRate_spec 1 2).2 (by norm_num)).1⟩

/-! ### Request validation (main.py lines 38–84 and 877–918)

Everything that runs before any market data is downloaded and before
`cerebro.run()`: the pydantic field constraints and validators of
`PortfolioStock` / `PortfolioStrategyInput`, then the date and
strategy-name checks at the top of `run_portfolio_backtest`.  Dates are
modelled as already-parsed day ordinals (the `validate_date_format`
validator only checks parseability of the `YYYY-MM-DD` string). -/

structure PortfolioStock where
  ticker : String
  allocation : ℚ
deriving DecidableEq

structure PortfolioStrategyInput where
  stocks : List PortfolioStock
  start_date : ℤ
  end_date : ℤ
  strategy : String
  rsi_period : ℤ
  rsi_buy : ℤ
  rsi_sell : ℤ
  macd_fast : ℤ
  macd_slow : ℤ
  macd_signal : ℤ
  volume_multiplier : ℚ
  volume_period : ℤ
  volume_hold_days : ℤ
  initial_cash : ℚ
  rebalance : Bool
  rebalance_frequency : String

/-- `sum(stock.allocation for stock in v)`. -/
def allocTotal (stocks : List PortfolioStock) : ℚ :=
  (stocks.map (fun s => s.allocation)).sum

/-- The pydantic `Field` constraints of one `PortfolioStock`:
`ticker` of length 1–10 and `allocation` in `[0, 100]`. -/
def PortfolioStock.fieldOk (s : PortfolioStock) : Prop :=
  1 ≤ s.ticker.length ∧ s.ticker.length ≤ 10 ∧
    0 ≤ s.allocation ∧ s.allocation ≤ 100

instance (s : PortfolioStock) : Decidable s.fieldOk := by
  unfold PortfolioStock.fieldOk
  infer_instance

/-- Model validation of `PortfolioStrategyInput`: the `Field` range
constraints plus the `validate_allocations` validator, which raises when
`abs(total - 100.0) > 0.01`. -/
def pydanticAccepts (i : PortfolioStrategyInput) : Prop :=
  1 ≤ i.stocks.length ∧ i.stocks.length ≤ 20 ∧
  (∀ s ∈ i.stocks, s.fieldOk) ∧
  5 ≤ i.rsi_period ∧ i.rsi_period ≤ 50 ∧
  0 ≤ i.rsi_buy ∧ i.rsi_buy ≤ 100 ∧
  0 ≤ i.rsi_sell ∧ i.rsi_sell ≤ 100 ∧
  5 ≤ i.macd_fast ∧ i.macd_fast ≤ 50 ∧
  10 ≤ i.macd_slow ∧ i.macd_slow ≤ 100 ∧
  5 ≤ i.macd_signal ∧ i.macd_signal ≤ 30 ∧
  1 ≤ i.volume_multiplier ∧ i.volume_multiplier ≤ 10 ∧
  5 ≤ i.volume_period ∧ i.volume_period ≤ 100 ∧
  1 ≤ i.volume_hold_days ∧ i.volume_hold_days ≤ 30 ∧
  1000 ≤ i.initial_cash ∧
  |allocTotal i.stocks - 100| ≤ 1 / 100

/-- The full pre-simulation gate of `/backtest-portfolio`: model
validation, then `start_dt >= end_dt` and `end_dt > now` rejections,
then the strategy-name dispatch (`Unknown strategy` rejection) — all of
which happen before any data download or `cerebro.run()`. -/
def endpointAccepts (i : PortfolioStrategyInput) (now : ℤ) : Prop :=
  pydanticAccepts i ∧
  i.start_date < i.end_date ∧
  i.end_date ≤ now ∧
  (i.strategy = "RSI" ∨ i.strategy = "MACD" ∨ i.strategy = "Volume_Spike")

/-- An otherwise valid RSI request whose sell threshold (30) is below
its buy threshold (70). -/
def invertedThresholdInput : PortfolioStrategyInput :=
  { stocks := [{ ticker := "AAPL", allocation := 60 },
               { ticker := "MSFT", allocation := 40 }]
    start_date := 0
    end_date := 10
    strategy := "RSI"
    rsi_period := 14
    rsi_buy := 70
    rsi_sell := 30
    macd_fast := 12
    macd_slow := 26
    macd_signal := 9
    volume_multiplier := 2
    volume_period := 20
    volume_hold_days := 5
    initial_cash := 100000
    rebalance := false
    rebalance_frequency := "monthly" }

/-- No check anywhere compares the RSI thresholds: a request with
`rsi_sell = 30 ≤ 70 = rsi_buy` passes model validation and every
pre-simulation check of `run_portfolio_backtest`, refuting the claim
that such a configuration is rejected before simulation. -/
theorem inverted_thresholds_accepted :
    invertedThresholdInput.rsi_sell ≤ invertedThresholdInput.rsi_buy ∧
    endpointAccepts invertedThresholdInput 100 := by
  refine ⟨by norm_num [invertedThresholdInput], ?_, ?_, ?_, ?_⟩
  · refine ⟨by norm_num [invertedThresholdInput], by norm_num [invertedThresholdInput],
      ?_, ?_⟩
    · intro s hs
      simp only [invertedThresholdInput, List.mem_cons, List.not_mem_nil,
        or_false] at hs
      rcases hs with h | h <;> subst h <;>
        exact ⟨by decide, by decide, by norm_num, by norm_num⟩
    · norm_num [invertedThresholdInput, allocTotal]
  · norm_num [invertedThresholdInput]
  · norm_num [invertedThresholdInput]
  · left; rfl

/-- C4 (amended): no ordering between the RSI thresholds is ever
checked — acceptance of a request is invariant under swapping
`rsi_buy` and `rsi_sell`, so a sell ≤ buy configuration is accepted
exactly when the corresponding sell > buy one is. -/
theorem accepts_ignores_threshold_order (i : PortfolioStrategyInput)
    (now : ℤ) :
    endpointAccepts { i with rsi_buy := i.rsi_sell, rsi_sell := i.rsi_buy }
        now ↔
      endpointAccepts i now := by
  unfold endpointAccepts pydanticAccepts
  simp only
  tauto

/-- C5: a request whose allocations do not sum to 100 within the 0.01
tolerance, or any of whose allocations lies outside `[0, 100]`, fails
the pre-simulation gate. -/
theorem bad_allocations_rejected (i : PortfolioStrategyInput) (now : ℤ)
    (h : 1 / 100 < |allocTotal i.stocks - 100| ∨
      ∃ s ∈ i.stocks, s.allocation < 0 ∨ 100 < s.allocation) :
    ¬ endpointAccepts i now := by
  intro hacc
  obtain ⟨hpy, -⟩ := hacc
  obtain ⟨-, -, hstocks, -, -, -, -, -, -, -, -, -, -, -, -, -, -, -, -, -,
    -, -, habs⟩ := hpy
  rcases h with h | ⟨s, hs, hbad⟩
  · linarith
  · obtain ⟨-, -, h0, h100⟩ := hstocks s hs
    rcases hbad with hb | hb <;> linarith

/-- Witness for `bad_allocations_rejected`: allocations 50/49 sum to 99,
outside the tolerance, so the request is rejected. -/
theorem bad_allocations_rejected_witness :
    ¬ endpointAccepts
        { invertedThresholdInput with
            stocks := [{ ticker := "AAPL", allocation := 50 },
                       { ticker := "MSFT", allocation := 49 }] } 100 :=
  bad_allocations_rejected _ 100 (Or.inl (by norm_num [allocTotal]))

/-! ### Portfolio per-step loop and order sizing (main.py lines 318–333
and 425–445)

`next()` iterates `self.datas` in list order; for a flat instrument with
a buy signal it reads `available_cash = self.broker.getcash()`, computes
`size = int(available_cash * allocation/100 / close)` and buys when
`size > 0`.  The broker itself is backtrader code outside `src/`;
its fill semantics are modelled from the spec (§4.3): a BUY debits
`size × close` from cash and opens the position at once, a SELL credits
`size × close` and zeroes it, so the cash an instrument sizes against is
the cash left by the instruments processed before it in the same step. -/

/-- An order submitted during a step, with its share count. -/
inductive StepOrder
  | buyO (size : ℕ)
  | sellO (size : ℕ)
deriving DecidableEq

/-- One instrument's view in `PortfolioRSIStrategy.next`: its current
close, its RSI indicator value, its allocation percentage
(`allocations.get(d._name, 0)`), and its current position size. -/
structure RSIInstrData where
  close : ℚ
  rsi : ℚ
  alloc : ℚ
  pos : ℕ
deriving DecidableEq

/-- The body of the `for i, d in enumerate(self.datas)` loop of
`PortfolioRSIStrategy.next` for one instrument, returning the broker
cash after the instrument's turn, its new position, and the order it
submitted (if any).  `int()` truncates toward zero and Python's
`if size > 0` rejects nonpositive sizes; `Int.toNat` sends every
negative truncation to `0`, which fails `0 < size` just as the Python
comparison does. -/
def PortfolioRSIStrategy.nextOne (rsi_buy rsi_sell cash : ℚ)
    (d : RSIInstrData) : ℚ × ℕ × Option StepOrder :=
  if d.pos = 0 then
    if d.rsi < rsi_buy then
      let target_value := cash * (d.alloc / 100)
      let size := (truncQ (target_value / d.close)).toNat
      if 0 < size then
        (cash - (size : ℚ) * d.close, size, some (StepOrder.buyO size))
      else (cash, d.pos, none)
    else (cash, d.pos, none)
  else
    if rsi_sell < d.rsi then
      (cash + (d.pos : ℚ) * d.close, 0, some (StepOrder.sellO d.pos))
    else (cash, d.pos, none)

/-- One full `PortfolioRSIStrategy.next` step over the instrument list,
threading the broker cash through the per-instrument loop bodies.
Returns the final cash and, per instrument, its new position and order. -/
def PortfolioRSIStrategy.next (rsi_buy rsi_sell : ℚ) :
    ℚ → List RSIInstrData → ℚ × List (ℕ × Option StepOrder)
  | cash, [] => (cash, [])
  | cash, d :: rest =>
      let r := PortfolioRSIStrategy.nextOne rsi_buy rsi_sell cash d
      let t := PortfolioRSIStrategy.next rsi_buy rsi_sell r.1 rest
      (t.1, (r.2.1, r.2.2) :: t.2)

/-- The broker cash at the moment instrument `i`'s turn in the loop
occurs: the initial step cash transformed by the loop bodies of
instruments `0..i-1`. -/
def PortfolioRSIStrategy.cashAt (rsi_buy rsi_sell : ℚ) :
    ℚ → List RSIInstrData → ℕ → ℚ
  | cash, _, 0 => cash
  | cash, [], _ + 1 => cash
  | cash, d :: rest, i + 1 =>
      PortfolioRSIStrategy.cashAt rsi_buy rsi_sell
        (PortfolioRSIStrategy.nextOne rsi_buy rsi_sell cash d).1 rest i

/-- Sizing never overdraws: debiting `size × close` from the cash used
for the sizing leaves a nonnegative balance (the target value is at most
the available cash because the allocation is at most 100%). -/
theorem buy_debit_nonneg (cash alloc close : ℚ) (hc : 0 ≤ cash)
    (ha0 : 0 ≤ alloc) (ha1 : alloc ≤ 100) (hcl : 0 < close) :
    0 ≤ cash - (((truncQ (cash * (alloc / 100) / close)).toNat : ℚ)) * close := by
  have hq0 : 0 ≤ cash * (alloc / 100) / close :=
    div_nonneg (mul_nonneg hc (div_nonneg ha0 (by norm_num))) hcl.le
  rw [truncQ_of_nonneg _ hq0]
  have hfl : (0 : ℤ) ≤ ⌊cash * (alloc / 100) / close⌋ :=
    Int.floor_nonneg.mpr hq0
  have hcast : ((⌊cash * (alloc / 100) / close⌋.toNat : ℚ)) =
      ((⌊cash * (alloc / 100) / close⌋ : ℤ) : ℚ) := by
    exact_mod_cast Int.toNat_of_nonneg hfl
  rw [hcast]
  have hle : ((⌊cash * (alloc / 100) / close⌋ : ℤ) : ℚ) ≤
      cash * (alloc / 100) / close := Int.floor_le _
  have h1 : ((⌊cash * (alloc / 100) / close⌋ : ℤ) : ℚ) * close ≤
      cash * (alloc / 100) := by
    calc ((⌊cash * (alloc / 100) / close⌋ : ℤ) : ℚ) * close
        ≤ cash * (alloc / 100) / close * close :=
          mul_le_mul_of_nonneg_right hle hcl.le
      _ = cash * (alloc / 100) := div_mul_cancel₀ _ (ne_of_gt hcl)
  have h2 : cash * (alloc / 100) ≤ cash := by
    have hle1 : alloc / 100 ≤ 1 := by linarith
    nlinarith
  linarith

theorem PortfolioRSIStrategy.rsi_nextOne_cash_nonneg (rsi_buy rsi_sell cash : ℚ)
    (d : RSIInstrData) (hc : 0 ≤ cash) (ha0 : 0 ≤ d.alloc)
    (ha1 : d.alloc ≤ 100) (hcl : 0 < d.close) :
    0 ≤ (PortfolioRSIStrategy.nextOne rsi_buy rsi_sell cash d).1 := by
  unfold PortfolioRSIStrategy.nextOne
  by_cases h0 : d.pos = 0
  · rw [if_pos h0]
    by_cases hs : d.rsi < rsi_buy
    · rw [if_pos hs]
      dsimp only
      by_cases hq :
          0 < (truncQ (cash * (d.alloc / 100) / d.close)).toNat
      · rw [if_pos hq]
        exact buy_debit_nonneg cash d.alloc d.close hc ha0 ha1 hcl
      · rw [if_neg hq]
        exact hc
    · rw [if_neg hs]
      exact hc
  · rw [if_neg h0]
    by_cases hs : rsi_sell < d.rsi
    · rw [if_pos hs]
      have hp : (0 : ℚ) ≤ (d.pos : ℚ) * d.close :=
        mul_nonneg (Nat.cast_nonneg _) hcl.le
      dsimp only
      linarith
    · rw [if_neg hs]
      exact hc

theorem PortfolioRSIStrategy.rsi_next_cons (rsi_buy rsi_sell cash : ℚ)
    (d : RSIInstrData) (rest : List RSIInstrData) :
    PortfolioRSIStrategy.next rsi_buy rsi_sell cash (d :: rest) =
      ((PortfolioRSIStrategy.next rsi_buy rsi_sell
          (PortfolioRSIStrategy.nextOne rsi_buy rsi_sell cash d).1 rest).1,
        ((PortfolioRSIStrategy.nextOne rsi_buy rsi_sell cash d).2.1,
          (PortfolioRSIStrategy.nextOne rsi_buy rsi_sell cash d).2.2) ::
          (PortfolioRSIStrategy.next rsi_buy rsi_sell
            (PortfolioRSIStrategy.nextOne rsi_buy rsi_sell cash d).1
            rest).2) := rfl

theorem PortfolioRSIStrategy.rsi_cashAt_zero (rsi_buy rsi_sell cash : ℚ)
    (ds : List RSIInstrData) :
    PortfolioRSIStrategy.cashAt rsi_buy rsi_sell cash ds 0 = cash := by
  cases ds <;> rfl

theorem PortfolioRSIStrategy.rsi_cashAt_cons_succ (rsi_buy rsi_sell cash : ℚ)
    (d : RSIInstrData) (rest : List RSIInstrData) (j : ℕ) :
    PortfolioRSIStrategy.cashAt rsi_buy rsi_sell cash (d :: rest) (j + 1) =
      PortfolioRSIStrategy.cashAt rsi_buy rsi_sell
        (PortfolioRSIStrategy.nextOne rsi_buy rsi_sell cash d).1 rest j := rfl

/-- The per-claim workhorse for the RSI variant: at every index `i`
whose instrument is flat and signals a buy, the cash it sizes against is
`cashAt … i` (the cash left by the earlier instruments of the same
step), the submitted order is `floor(cash × alloc/100 / close)` shares,
and no order is submitted when that floor is 0. -/
theorem PortfolioRSIStrategy.rsi_buy_sizing (rsi_buy rsi_sell : ℚ)
    (cash : ℚ) (ds : List RSIInstrData) (i : ℕ) (d : RSIInstrData)
    (hget : ds[i]? = some d) (hflat : d.pos = 0) (hsig : d.rsi < rsi_buy)
    (hc : 0 ≤ cash) (halloc : ∀ e ∈ ds, 0 ≤ e.alloc ∧ e.alloc ≤ 100)
    (hclose : ∀ e ∈ ds, 0 < e.close) :
    0 ≤ PortfolioRSIStrategy.cashAt rsi_buy rsi_sell cash ds i ∧
    (PortfolioRSIStrategy.next rsi_buy rsi_sell cash ds).2[i]? =
      some
        (if 0 < ⌊PortfolioRSIStrategy.cashAt rsi_buy rsi_sell cash ds i *
            (d.alloc / 100) / d.close⌋ then
          ((⌊PortfolioRSIStrategy.cashAt rsi_buy rsi_sell cash ds i *
              (d.alloc / 100) / d.close⌋).toNat,
            some (StepOrder.buyO
              (⌊PortfolioRSIStrategy.cashAt rsi_buy rsi_sell cash ds i *
                (d.alloc / 100) / d.close⌋).toNat))
        else (d.pos, none)) := by
  induction ds generalizing cash i with
  | nil => simp at hget
  | cons d0 rest ih =>
      cases i with
      | zero =>
          rw [List.getElem?_cons_zero, Option.some_inj] at hget
          subst hget
          have hd0 := halloc d0 (List.mem_cons_self d0 rest)
          have hcl0 := hclose d0 (List.mem_cons_self d0 rest)
          refine ⟨by rw [PortfolioRSIStrategy.rsi_cashAt_zero]; exact hc, ?_⟩
          rw [PortfolioRSIStrategy.rsi_next_cons, PortfolioRSIStrategy.rsi_cashAt_zero,
            List.getElem?_cons_zero, Option.some_inj]
          unfold PortfolioRSIStrategy.nextOne
          rw [if_pos hflat, if_pos hsig]
          dsimp only
          have hq0 : 0 ≤ cash * (d0.alloc / 100) / d0.close :=
            div_nonneg (mul_nonneg hc (div_nonneg hd0.1 (by norm_num)))
              hcl0.le
          rw [truncQ_of_nonneg _ hq0]
          by_cases hq : 0 < ⌊cash * (d0.alloc / 100) / d0.close⌋
          · have hqn : 0 < ⌊cash * (d0.alloc / 100) / d0.close⌋.toNat := by
              omega
            rw [if_pos hqn, if_pos hq]
          · have hqn : ¬ 0 < ⌊cash * (d0.alloc / 100) / d0.close⌋.toNat := by
              omega
            rw [if_neg hqn, if_neg hq]
      | succ j =>
          rw [List.getElem?_cons_succ] at hget
          have hd0a := halloc d0 (List.mem_cons_self d0 rest)
          have hd0c := hclose d0 (List.mem_cons_self d0 rest)
          have hc1 : 0 ≤ (PortfolioRSIStrategy.nextOne rsi_buy rsi_sell
              cash d0).1 :=
            PortfolioRSIStrategy.rsi_nextOne_cash_nonneg rsi_buy rsi_sell cash d0
              hc hd0a.1 hd0a.2 hd0c
          have hrec := ih _ j hget hc1
            (fun e he => halloc e (List.mem_cons_of_mem d0 he))
            (fun e he => hclose e (List.mem_cons_of_mem d0 he))
          rw [PortfolioRSIStrategy.rsi_next_cons, PortfolioRSIStrategy.rsi_cashAt_cons_succ,
            List.getElem?_cons_succ]
          exact hrec

/-- One instrument's view in `PortfolioVolumeSpikeStrategy.next`: close,
current bar volume, rolling average volume (`bt.indicators.SMA`,
external), allocation percentage, position size, and hold counter. -/
structure VolInstrData where
  close : ℚ
  volume : ℚ
  vol_sma : ℚ
  alloc : ℚ
  pos : ℕ
  hold : ℕ
deriving DecidableEq

/-- The loop body of `PortfolioVolumeSpikeStrategy.next` for one
instrument (lines 425–445): flat + `volume > sma × multiplier` sizes and
buys exactly like the RSI variant (resetting the hold counter); in a
position the hold counter is incremented and the position sold once it
reaches `hold_days`.  Broker fills spec-modelled as for the RSI variant. -/
def PortfolioVolumeSpikeStrategy.nextOne (volume_multiplier : ℚ)
    (hold_days : ℕ) (cash : ℚ) (d : VolInstrData) :
    ℚ × (ℕ × ℕ) × Option StepOrder :=
  if d.pos = 0 then
    if d.vol_sma * volume_multiplier < d.volume then
      let target_value := cash * (d.alloc / 100)
      let size := (truncQ (target_value / d.close)).toNat
      if 0 < size then
        (cash - (size : ℚ) * d.close, (size, 0), some (StepOrder.buyO size))
      else (cash, (d.pos, d.hold), none)
    else (cash, (d.pos, d.hold), none)
  else
    if hold_days ≤ d.hold + 1 then
      (cash + (d.pos : ℚ) * d.close, (0, 0), some (StepOrder.sellO d.pos))
    else (cash, (d.pos, d.hold + 1), none)

/-- One full `PortfolioVolumeSpikeStrategy.next` step over the
instrument list, threading the broker cash. -/
def PortfolioVolumeSpikeStrategy.next (volume_multiplier : ℚ)
    (hold_days : ℕ) :
    ℚ → List VolInstrData → ℚ × List ((ℕ × ℕ) × Option StepOrder)
  | cash, [] => (cash, [])
  | cash, d :: rest =>
      let r := PortfolioVolumeSpikeStrategy.nextOne volume_multiplier
        hold_days cash d
      let t := PortfolioVolumeSpikeStrategy.next volume_multiplier
        hold_days r.1 rest
      (t.1, (r.2.1, r.2.2) :: t.2)

/-- Broker cash at the moment instrument `i`'s turn occurs
(volume-spike variant). -/
def PortfolioVolumeSpikeStrategy.cashAt (volume_multiplier : ℚ)
    (hold_days : ℕ) : ℚ → List VolInstrData → ℕ → ℚ
  | cash, _, 0 => cash
  | cash, [], _ + 1 => cash
  | cash, d :: rest, i + 1 =>
      PortfolioVolumeSpikeStrategy.cashAt volume_multiplier hold_days
        (PortfolioVolumeSpikeStrategy.nextOne volume_multiplier hold_days
          cash d).1 rest i

theorem PortfolioVolumeSpikeStrategy.vol_nextOne_cash_nonneg
    (volume_multiplier : ℚ) (hold_days : ℕ) (cash : ℚ) (d : VolInstrData)
    (hc : 0 ≤ cash) (ha0 : 0 ≤ d.alloc) (ha1 : d.alloc ≤ 100)
    (hcl : 0 < d.close) :
    0 ≤ (PortfolioVolumeSpikeStrategy.nextOne volume_multiplier hold_days
      cash d).1 := by
  unfold PortfolioVolumeSpikeStrategy.nextOne
  by_cases h0 : d.pos = 0
  · rw [if_pos h0]
    by_cases hs : d.vol_sma * volume_multiplier < d.volume
    · rw [if_pos hs]
      dsimp only
      by_cases hq :
          0 < (truncQ (cash * (d.alloc / 100) / d.close)).toNat
      · rw [if_pos hq]
        exact buy_debit_nonneg cash d.alloc d.close hc ha0 ha1 hcl
      · rw [if_neg hq]
        exact hc
    · rw [if_neg hs]
      exact hc
  · rw [if_neg h0]
    by_cases hs : hold_days ≤ d.hold + 1
    · rw [if_pos hs]
      have hp : (0 : ℚ) ≤ (d.pos : ℚ) * d.close :=
        mul_nonneg (Nat.cast_nonneg _) hcl.le
      dsimp only
      linarith
    · rw [if_neg hs]
      exact hc

theorem PortfolioVolumeSpikeStrategy.vol_next_cons (volume_multiplier : ℚ)
    (hold_days : ℕ) (cash : ℚ) (d : VolInstrData)
    (rest : List VolInstrData) :
    PortfolioVolumeSpikeStrategy.next volume_multiplier hold_days cash
        (d :: rest) =
      ((PortfolioVolumeSpikeStrategy.next volume_multiplier hold_days
          (PortfolioVolumeSpikeStrategy.nextOne volume_multiplier hold_days
            cash d).1 rest).1,
        ((PortfolioVolumeSpikeStrategy.nextOne volume_multiplier hold_days
            cash d).2.1,
          (PortfolioVolumeSpikeStrategy.nextOne volume_multiplier hold_days
            cash d).2.2) ::
          (PortfolioVolumeSpikeStrategy.next volume_multiplier hold_days
            (PortfolioVolumeSpikeStrategy.nextOne volume_multiplier
              hold_days cash d).1 rest).2) := rfl

theorem PortfolioVolumeSpikeStrategy.vol_cashAt_zero (volume_multiplier : ℚ)
    (hold_days : ℕ) (cash : ℚ) (ds : List VolInstrData) :
    PortfolioVolumeSpikeStrategy.cashAt volume_multiplier hold_days cash
      ds 0 = cash := by
  cases ds <;> rfl

theorem PortfolioVolumeSpikeStrategy.vol_cashAt_cons_succ
    (volume_multiplier : ℚ) (hold_days : ℕ) (cash : ℚ) (d : VolInstrData)
    (rest : List VolInstrData) (j : ℕ) :
    PortfolioVolumeSpikeStrategy.cashAt volume_multiplier hold_days cash
        (d :: rest) (j + 1) =
      PortfolioVolumeSpikeStrategy.cashAt volume_multiplier hold_days
        (PortfolioVolumeSpikeStrategy.nextOne volume_multiplier hold_days
          cash d).1 rest j := rfl

theorem PortfolioVolumeSpikeStrategy.vol_buy_sizing (volume_multiplier : ℚ)
    (hold_days : ℕ) (cash : ℚ) (ds : List VolInstrData) (i : ℕ)
    (d : VolInstrData) (hget : ds[i]? = some d) (hflat : d.pos = 0)
    (hsig : d.vol_sma * volume_multiplier < d.volume) (hc : 0 ≤ cash)
    (halloc : ∀ e ∈ ds, 0 ≤ e.alloc ∧ e.alloc ≤ 100)
    (hclose : ∀ e ∈ ds, 0 < e.close) :
    0 ≤ PortfolioVolumeSpikeStrategy.cashAt volume_multiplier hold_days
      cash ds i ∧
    (PortfolioVolumeSpikeStrategy.next volume_multiplier hold_days cash
        ds).2[i]? =
      some
        (if 0 < ⌊PortfolioVolumeSpikeStrategy.cashAt volume_multiplier
            hold_days cash ds i * (d.alloc / 100) / d.close⌋ then
          (((⌊PortfolioVolumeSpikeStrategy.cashAt volume_multiplier
              hold_days cash ds i * (d.alloc / 100) / d.close⌋).toNat, 0),
            some (StepOrder.buyO
              (⌊PortfolioVolumeSpikeStrategy.cashAt volume_multiplier
                hold_days cash ds i * (d.alloc / 100) / d.close⌋).toNat))
        else ((d.pos, d.hold), none)) := by
  induction ds generalizing cash i with
  | nil => simp at hget
  | cons d0 rest ih =>
      cases i with
      | zero =>
          rw [List.getElem?_cons_zero, Option.some_inj] at hget
          subst hget
          have hd0 := halloc d0 (List.mem_cons_self d0 rest)
          have hcl0 := hclose d0 (List.mem_cons_self d0 rest)
          refine ⟨by
            rw [PortfolioVolumeSpikeStrategy.vol_cashAt_zero]; exact hc, ?_⟩
          rw [PortfolioVolumeSpikeStrategy.vol_next_cons,
            PortfolioVolumeSpikeStrategy.vol_cashAt_zero,
            List.getElem?_cons_zero, Option.some_inj]
          unfold PortfolioVolumeSpikeStrategy.nextOne
          rw [if_pos hflat, if_pos hsig]
          dsimp only
          have hq0 : 0 ≤ cash * (d0.alloc / 100) / d0.close :=
            div_nonneg (mul_nonneg hc (div_nonneg hd0.1 (by norm_num)))
              hcl0.le
          rw [truncQ_of_nonneg _ hq0]
          by_cases hq : 0 < ⌊cash * (d0.alloc / 100) / d0.close⌋
          · have hqn : 0 < ⌊cash * (d0.alloc / 100) / d0.close⌋.toNat := by
              omega
            rw [if_pos hqn, if_pos hq]
          · have hqn : ¬ 0 < ⌊cash * (d0.alloc / 100) / d0.close⌋.toNat := by
              omega
            rw [if_neg hqn, if_neg hq]
      | succ j =>
          rw [List.getElem?_cons_succ] at hget
          have hd0a := halloc d0 (List.mem_cons_self d0 rest)
          have hd0c := hclose d0 (List.mem_cons_self d0 rest)
          have hc1 : 0 ≤ (PortfolioVolumeSpikeStrategy.nextOne
              volume_multiplier hold_days cash d0).1 :=
            PortfolioVolumeSpikeStrategy.vol_nextOne_cash_nonneg
              volume_multiplier hold_days cash d0 hc hd0a.1 hd0a.2 hd0c
          have hrec := ih _ j hget hc1
            (fun e he => halloc e (List.mem_cons_of_mem d0 he))
            (fun e he => hclose e (List.mem_cons_of_mem d0 he))
          rw [PortfolioVolumeSpikeStrategy.vol_next_cons,
            PortfolioVolumeSpikeStrategy.vol_cashAt_cons_succ,
            List.getElem?_cons_succ]
          exact hrec

/-- C1: in both cited portfolio variants (RSI and VolumeSpike), a flat
instrument receiving a BUY decision is sized against the broker cash at
the moment its turn in the per-step loop occurs (`cashAt`, i.e. the cash
left by the instruments processed before it in the same step, each
earlier buy having debited its cost), the order size is exactly
`floor(availableCash × (alloc%/100) / close)`, and no order is submitted
when that floor is 0. -/
theorem portfolio_buy_sizing :
    (∀ (rsi_buy rsi_sell cash : ℚ) (ds : List RSIInstrData) (i : ℕ)
      (d : RSIInstrData), ds[i]? = some d → d.pos = 0 → d.rsi < rsi_buy →
      0 ≤ cash → (∀ e ∈ ds, 0 ≤ e.alloc ∧ e.alloc ≤ 100) →
      (∀ e ∈ ds, 0 < e.close) →
      (PortfolioRSIStrategy.next rsi_buy rsi_sell cash ds).2[i]? =
        some
          (if 0 < ⌊PortfolioRSIStrategy.cashAt rsi_buy rsi_sell cash ds i *
              (d.alloc / 100) / d.close⌋ then
            ((⌊PortfolioRSIStrategy.cashAt rsi_buy rsi_sell cash ds i *
                (d.alloc / 100) / d.close⌋).toNat,
              some (StepOrder.buyO
                (⌊PortfolioRSIStrategy.cashAt rsi_buy rsi_sell cash ds i *
                  (d.alloc / 100) / d.close⌋).toNat))
          else (d.pos, none))) ∧
    (∀ (volume_multiplier : ℚ) (hold_days : ℕ) (cash : ℚ)
      (ds : List VolInstrData) (i : ℕ) (d : VolInstrData),
      ds[i]? = some d → d.pos = 0 →
      d.vol_sma * volume_multiplier < d.volume → 0 ≤ cash →
      (∀ e ∈ ds, 0 ≤ e.alloc ∧ e.alloc ≤ 100) →
      (∀ e ∈ ds, 0 < e.close) →
      (PortfolioVolumeSpikeStrategy.next volume_multiplier hold_days cash
          ds).2[i]? =
        some
          (if 0 < ⌊PortfolioVolumeSpikeStrategy.cashAt volume_multiplier
              hold_days cash ds i * (d.alloc / 100) / d.close⌋ then
            (((⌊PortfolioVolumeSpikeStrategy.cashAt volume_multiplier
                hold_days cash ds i * (d.alloc / 100) / d.close⌋).toNat, 0),
              some (StepOrder.buyO
                (⌊PortfolioVolumeSpikeStrategy.cashAt volume_multiplier
                  hold_days cash ds i * (d.alloc / 100) / d.close⌋).toNat))
          else ((d.pos, d.hold), none))) :=
  ⟨fun rsi_buy rsi_sell cash ds i d hget hflat hsig hc halloc hclose =>
    (PortfolioRSIStrategy.rsi_buy_sizing rsi_buy rsi_sell cash ds i d hget
      hflat hsig hc halloc hclose).2,
    fun volume_multiplier hold_days cash ds i d hget hflat hsig hc halloc
        hclose =>
      (PortfolioVolumeSpikeStrategy.vol_buy_sizing volume_multiplier hold_days
        cash ds i d hget hflat hsig hc halloc hclose).2⟩

/-- The spec's end-to-end scenario B as a witness: two flat instruments
with allocations 60/40, closes 50/25, both signalling BUY with initial
cash 100000.  The first buys `floor(100000×0.6/50) = 1200` shares,
leaving 40000; the second sizes against that remaining cash and buys
`floor(40000×0.4/25) = 640` shares. -/
theorem portfolio_buy_sizing_witness :
    (PortfolioRSIStrategy.next 30 70 100000
        [⟨50, 10, 60, 0⟩, ⟨25, 10, 40, 0⟩]).2[1]? =
      some (640, some (StepOrder.buyO 640)) ∧
    PortfolioRSIStrategy.cashAt 30 70 100000
        [⟨50, 10, 60, 0⟩, ⟨25, 10, 40, 0⟩] 1 = 40000 ∧
    (PortfolioVolumeSpikeStrategy.next 2 5 100000
        [⟨50, 300, 100, 60, 0, 0⟩, ⟨25, 300, 100, 40, 0, 0⟩]).2[0]? =
      some ((1200, 0), some (StepOrder.buyO 1200)) := by
  have hcash : PortfolioRSIStrategy.cashAt 30 70 100000
      ([⟨50, 10, 60, 0⟩, ⟨25, 10, 40, 0⟩] : List RSIInstrData) 1 =
      40000 := by
    rw [PortfolioRSIStrategy.rsi_cashAt_cons_succ,
      PortfolioRSIStrategy.rsi_cashAt_zero]
    unfold PortfolioRSIStrategy.nextOne truncQ
    norm_num [Int.floor_eq_iff, show Int.toNat 1200 = 1200 from rfl]
  have h1 := (portfolio_buy_sizing).1 30 70 100000
    [⟨50, 10, 60, 0⟩, ⟨25, 10, 40, 0⟩] 1 ⟨25, 10, 40, 0⟩ (by rfl) rfl
    (by norm_num) (by norm_num)
    (by intro e he; fin_cases he <;> exact ⟨by norm_num, by norm_num⟩)
    (by intro e he; fin_cases he <;> norm_num)
  rw [hcash] at h1
  have h2 := (portfolio_buy_sizing).2 2 5 100000
    [⟨50, 300, 100, 60, 0, 0⟩, ⟨25, 300, 100, 40, 0, 0⟩] 0
    ⟨50, 300, 100, 60, 0, 0⟩ (by rfl) rfl (by norm_num) (by norm_num)
    (by intro e he; fin_cases he <;> exact ⟨by norm_num, by norm_num⟩)
    (by intro e he; fin_cases he <;> norm_num)
  rw [PortfolioVolumeSpikeStrategy.vol_cashAt_zero] at h2
  refine ⟨?_, hcash, ?_⟩
  · rw [h1]
    norm_num [Int.floor_eq_iff, show Int.toNat 640 = 640 from rfl]
  · rw [h2]
    norm_num [Int.floor_eq_iff, show Int.toNat 1200 = 1200 from rfl]

/-! ### Screening pipeline (main.py lines 649–786 and 1030–1078)

`process_single_stock` reads the cached OHLCV frame and ticker info;
both fetches are external I/O, so their outcomes are explicit inputs:
`none` for the frame models a download error or empty frame (the cached
helpers return `None` / `{}` on failure and the bare `except` in
`process_single_stock` turns any exception into a `None` result). -/

/-- One OHLCV bar of a cached frame. -/
structure Bar where
  high : ℚ
  low : ℚ
  close : ℚ
  volume : ℚ
deriving DecidableEq

/-- The fields `process_single_stock` reads from the yfinance info
dict; `none` models a missing key (or the empty dict left by a fetch
error). -/
structure TickerInfo where
  marketCap : Option ℚ
  trailingPE : Option ℚ
  sector : Option String
  longName : Option String
deriving DecidableEq

/-- `StockScreenerParams`, flattened to the dict handed to
`process_single_stock`. -/
structure StockScreenerParams where
  use_rsi : Bool
  rsi_min : ℚ
  rsi_max : ℚ
  use_macd : Bool
  macd_signal : String
  use_vwap : Bool
  vwap_position : String
  use_pe : Bool
  pe_min : ℚ
  pe_max : ℚ
  use_market_cap : Bool
  market_cap_min : ℚ
  market_cap_max : ℚ
  use_volume : Bool
  volume_min : ℚ
  use_price : Bool
  price_min : ℚ
  price_max : ℚ
  sector : String
deriving DecidableEq

/-- The result record built for a surviving instrument
(`pe_val` embeds the record's P/E field). -/
structure ScreenResult where
  symbol : String
  company_name : String
  sector : String
  current_price : ℚ
  change : ℚ
  change_percent : ℚ
  volume : ℤ
  market_cap : ℚ
  pe_val : ℚ
  rsi : ℚ
  macd : ℚ
  vwap : ℚ
deriving DecidableEq

/-- Python `round(x, 2)` — round half to even at two decimals.  (The
float version rounds the binary representation of `x`; on the exact
decimal values reached by the theorems below the two agree.) -/
def round2 (q : ℚ) : ℚ :=
  (if q * 100 - ⌊q * 100⌋ < 1 / 2 then ⌊q * 100⌋
   else if 1 / 2 < q * 100 - ⌊q * 100⌋ then ⌊q * 100⌋ + 1
   else if ⌊q * 100⌋ % 2 = 0 then ⌊q * 100⌋ else ⌊q * 100⌋ + 1) / 100

/-- Horner form of the adjusted EWM numerator `Σ wⁱ·xᵢ` over a series
given most-recent-first. -/
def ewmNum (w : ℚ) : List ℚ → ℚ
  | [] => 0
  | x :: rest => x + w * ewmNum w rest

/-- Horner form of the adjusted EWM weight total `Σ wⁱ`. -/
def ewmDen (w : ℚ) : List ℚ → ℚ
  | [] => 0
  | _ :: rest => 1 + w * ewmDen w rest

/-- Final value of `series.ewm(span=s).mean()` (pandas default
`adjust=True`): weights `(1-α)ⁱ` over past observations with
`α = 2/(s+1)`; `none` on an empty series. -/
def ewmLast (span : ℕ) (xs : List ℚ) : Option ℚ :=
  match xs with
  | [] => none
  | _ :: _ =>
      let w : ℚ := 1 - 2 / ((span : ℚ) + 1)
      some (ewmNum w xs.reverse / ewmDen w xs.reverse)

/-- `calculate_macd(prices, fast, slow)` (lines 470–478): EMA(fast) −
EMA(slow) at the last index; `0.0` for an empty series (`iloc[-1]`
raises and the bare `except` returns 0.0).  A finite EWM value is never
NaN, so the `isna` fallback reduces to the empty case. -/
def calculate_macd (prices : List ℚ) (fast slow : ℕ) : ℚ :=
  match ewmLast fast prices, ewmLast slow prices with
  | some a, some b => a - b
  | _, _ => 0

/-- `(recent_df['High'] + recent_df['Low'] + recent_df['Close']) / 3`. -/
def typicalPrice (b : Bar) : ℚ := (b.high + b.low + b.close) / 3

/-- `calculate_vwap(df)` (lines 649–660): last close when fewer than 20
bars (0.0 for an empty frame, via the except path), else the
volume-weighted mean of the typical price over the trailing 20 bars.
An all-zero-volume window gives NaN in floats (numpy scalar 0/0);
rational division by zero yields 0 there instead — no theorem below
touches that branch. -/
def calculate_vwap (bars : List Bar) : ℚ :=
  if bars.length = 0 then 0
  else if bars.length < 20 then (bars.getLastD ⟨0, 0, 0, 0⟩).close
  else
    let recent := bars.drop (bars.length - 20)
    (recent.map (fun b => typicalPrice b * b.volume)).sum /
      (recent.map (fun b => b.volume)).sum

/-- `ticker_info.get('trailingPE', 0) if ticker_info.get('trailingPE')
else 0`: Python truthiness sends a missing key, `None`, or a 0.0 value
to 0, and keeps any other number. -/
def peValOf (info : TickerInfo) : ℚ :=
  match info.trailingPE with
  | none => 0
  | some v => if v = 0 then 0 else v

/-- `process_single_stock(symbol, params)` (lines 697–786) with the two
cached fetch outcomes as explicit inputs.  The fail-fast filter chain
runs in source order: frame presence/length, price range, volume
minimum, sector, market-cap range, P/E (`pe_ratio <= 0 or pe_ratio <
pe_min or pe_ratio > pe_max`), RSI range, MACD sign, VWAP position;
survivors produce the rounded result record.  Indicator values are only
computed when the corresponding filter is enabled (`rsi_value = 50.0`,
`macd_value = 0.0`, `vwap_value = 0.0` otherwise). -/
def process_single_stock (symbol : String) (df : Option (List Bar))
    (info : TickerInfo) (p : StockScreenerParams) : Option ScreenResult :=
  match df with
  | none => none
  | some bars =>
    if bars.length < 2 then none
    else
      let current_price := (bars.getLastD ⟨0, 0, 0, 0⟩).close
      let volume : ℤ := truncQ (bars.getLastD ⟨0, 0, 0, 0⟩).volume
      if p.use_price ∧
          (current_price < p.price_min ∨ current_price > p.price_max) then
        none
      else if p.use_volume ∧ (volume : ℚ) < p.volume_min then none
      else
        let market_cap := info.marketCap.getD 0
        let pe_v := peValOf info
        let sector := info.sector.getD "Unknown"
        let company_name := info.longName.getD (symbol ++ " Corporation")
        if p.sector ≠ "any" ∧ sector ≠ p.sector then none
        else if p.use_market_cap ∧
            (market_cap < p.market_cap_min ∨
              market_cap > p.market_cap_max) then
          none
        else if p.use_pe ∧
            (pe_v ≤ 0 ∨ pe_v < p.pe_min ∨ pe_v > p.pe_max) then
          none
        else
          let rsi_value :=
            if p.use_rsi then calculate_rsi (bars.map Bar.close) 14 else 50
          if p.use_rsi ∧
              (rsi_value < p.rsi_min ∨ rsi_value > p.rsi_max) then
            none
          else
            let macd_value :=
              if p.use_macd then calculate_macd (bars.map Bar.close) 12 26
              else 0
            if p.use_macd ∧
                ((p.macd_signal = "bullish" ∧ macd_value ≤ 0) ∨
                  (p.macd_signal = "bearish" ∧ macd_value ≥ 0)) then
              none
            else
              let vwap_value :=
                if p.use_vwap then calculate_vwap bars else 0
              if p.use_vwap ∧
                  ((p.vwap_position = "above" ∧
                      current_price ≤ vwap_value) ∨
                    (p.vwap_position = "below" ∧
                      current_price ≥ vwap_value)) then
                none
              else
                let previous_close :=
                  (bars.getD (bars.length - 2) ⟨0, 0, 0, 0⟩).close
                let change := current_price - previous_close
                let change_percent := change / previous_close * 100
                some
                  { symbol := symbol
                    company_name := company_name
                    sector := sector
                    current_price := round2 current_price
                    change := round2 change
                    change_percent := round2 change_percent
                    volume := volume
                    market_cap := market_cap
                    pe_val := if pe_v > 0 then round2 pe_v else 0
                    rsi := round2 rsi_value
                    macd := round2 macd_value
                    vwap := if p.use_vwap then round2 vwap_value else 0 }

/-- Stable insertion keeping the list sorted by symbol ascending
(equal symbols keep earlier entries first, like Python's stable sort). -/
def insertBySymbol (r : ScreenResult) :
    List ScreenResult → List ScreenResult
  | [] => [r]
  | x :: xs =>
      if x.symbol ≤ r.symbol then x :: insertBySymbol r xs
      else r :: x :: xs

/-- `results.sort(key=lambda x: x['symbol'])`. -/
def sortBySymbol (rs : List ScreenResult) : List ScreenResult :=
  rs.foldl (fun acc r => insertBySymbol r acc) []

/-- `/screen-stocks` (lines 1030–1078): every instrument of the universe
is evaluated independently (the thread-pool fan-out / `asyncio.gather`
fan-in is observationally this per-symbol map, per spec §5), the `None`
outcomes are dropped, and the survivors are sorted by symbol. -/
def screen_stocks
    (univ : List (String × Option (List Bar) × TickerInfo))
    (p : StockScreenerParams) : List ScreenResult :=
  sortBySymbol
    (univ.filterMap
      (fun t => process_single_stock t.1 t.2.1 t.2.2 p))

theorem round2_fifty : round2 50 = 50 := by
  norm_num [round2]

theorem round2_zero : round2 0 = 0 := by
  norm_num [round2]

/-- Peeling one fail-fast filter: an `if`-guard returning `none` in its
then-branch contributes nothing when the overall outcome is `some`. -/
theorem eq_some_of_ite_none (c : Prop) [Decidable c]
    (x : Option ScreenResult) (r : ScreenResult)
    (h : (if c then none else x) = some r) : x = some r := by
  split at h
  · exact Option.noConfusion h
  · exact h

/-- Peeling one fail-fast filter in the other direction: if the rest of
the chain yields `none`, the guarded chain does too. -/
theorem ite_none_none (c : Prop) [Decidable c] (x : Option ScreenResult)
    (hx : x = none) : (if c then (none : Option ScreenResult) else x) = none := by
  split
  · rfl
  · exact hx

/-- C8 (amended): in every surviving result record, a disabled MACD
filter leaves `macd = 0` and a disabled VWAP filter leaves `vwap = 0`,
but a disabled RSI filter leaves the neutral `rsi = 50.0` — the RSI
field is 50-filled, not zero-filled. -/
theorem disabled_indicator_fill (symbol : String) (df : Option (List Bar))
    (info : TickerInfo) (p : StockScreenerParams) (r : ScreenResult)
    (h : process_single_stock symbol df info p = some r) :
    (p.use_rsi = false → r.rsi = 50) ∧
    (p.use_macd = false → r.macd = 0) ∧
    (p.use_vwap = false → r.vwap = 0) := by
  rcases df with _ | bars
  · exact absurd h (by simp [process_single_stock])
  · unfold process_single_stock at h
    have h9 := eq_some_of_ite_none _ _ _ (eq_some_of_ite_none _ _ _
      (eq_some_of_ite_none _ _ _ (eq_some_of_ite_none _ _ _
        (eq_some_of_ite_none _ _ _ (eq_some_of_ite_none _ _ _
          (eq_some_of_ite_none _ _ _ (eq_some_of_ite_none _ _ _
            (eq_some_of_ite_none _ _ _ h))))))))
    rw [Option.some_inj] at h9
    subst h9
    refine ⟨?_, ?_, ?_⟩
    · intro hx
      simp [hx, round2_fifty]
    · intro hx
      simp [hx, round2_zero]
    · intro hx
      simp [hx]

/-- The values used by the screening witnesses: a two-bar frame, a
well-populated info dict, and a parameter set with every filter
disabled. -/
def twoBars : List Bar :=
  [⟨10, 9, 10, 2000000⟩, ⟨11, 9, 10, 2400000⟩]

def sampleInfo : TickerInfo :=
  ⟨some 2000000000, some 15, some "Technology", some "Sample Corp"⟩

def allOffParams : StockScreenerParams :=
  { use_rsi := false
    rsi_min := 30
    rsi_max := 70
    use_macd := false
    macd_signal := "any"
    use_vwap := false
    vwap_position := "any"
    use_pe := false
    pe_min := 5
    pe_max := 30
    use_market_cap := false
    market_cap_min := 1000000000
    market_cap_max := 1000000000000
    use_volume := false
    volume_min := 1000000
    use_price := false
    price_min := 1
    price_max := 1000
    sector := "any" }

/-- With the RSI filter disabled, a surviving instrument's record
carries `rsi = 50.0`, not `0`: the RSI field is not zero-filled, contrary
to the claim. -/
theorem disabled_rsi_fifty_counterexample :
    (process_single_stock "AAPL" (some twoBars) sampleInfo
        allOffParams).map ScreenResult.rsi = some 50 ∧
    (50 : ℚ) ≠ 0 := by
  constructor
  · norm_num [process_single_stock, twoBars, sampleInfo, allOffParams,
      round2_fifty]
  · norm_num

/-- The record produced for `twoBars`/`sampleInfo` with all filters
disabled. -/
def sampleRecord : ScreenResult :=
  { symbol := "AAPL"
    company_name := "Sample Corp"
    sector := "Technology"
    current_price := 10
    change := 0
    change_percent := 0
    volume := 2400000
    market_cap := 2000000000
    pe_val := 15
    rsi := 50
    macd := 0
    vwap := 0 }

theorem disabled_indicator_fill_witness :
    ∃ r : ScreenResult,
      process_single_stock "AAPL" (some twoBars) sampleInfo allOffParams =
        some r ∧ r.rsi = 50 ∧ r.macd = 0 ∧ r.vwap = 0 := by
  have hr : process_single_stock "AAPL" (some twoBars) sampleInfo
      allOffParams = some sampleRecord := by
    norm_num [process_single_stock, twoBars, sampleInfo, allOffParams,
      sampleRecord, peValOf, truncQ, round2]
  have hfill := disabled_indicator_fill "AAPL" (some twoBars) sampleInfo
    allOffParams sampleRecord hr
  exact ⟨sampleRecord, hr, hfill.1 rfl, hfill.2.1 rfl, hfill.2.2 rfl⟩


/-- C9: one instrument whose evaluation yields no result (fetch failure,
empty/short frame, or any filter outcome mapped to `None`) is simply
absent from the output — the screening of every other instrument is
unchanged and the run still returns the surviving list. -/
theorem screening_failure_isolated (p : StockScreenerParams)
    (pre post : List (String × Option (List Bar) × TickerInfo))
    (s : String) (df : Option (List Bar)) (info : TickerInfo)
    (h : process_single_stock s df info p = none) :
    screen_stocks (pre ++ (s, df, info) :: post) p =
      screen_stocks (pre ++ post) p := by
  simp [screen_stocks, List.filterMap_append, List.filterMap_cons, h]

/-- Witness for `screening_failure_isolated`: a universe of one healthy
instrument and one whose download failed screens exactly like the
universe without the failed instrument. -/
theorem screening_failure_isolated_witness :
    screen_stocks [("AAPL", some twoBars, sampleInfo),
        ("ZZZZ", none, sampleInfo)] allOffParams =
      screen_stocks [("AAPL", some twoBars, sampleInfo)] allOffParams :=
  screening_failure_isolated allOffParams
    [("AAPL", some twoBars, sampleInfo)] [] "ZZZZ" none sampleInfo rfl

/-- C10: with the P/E filter enabled, an instrument whose trailing P/E
is missing, zero, or negative is excluded whatever the configured
`pe_min`/`pe_max` bounds are (the `pe_ratio <= 0` disjunct fires before
the range comparison). -/
theorem pe_nonpositive_excluded (symbol : String) (df : Option (List Bar))
    (info : TickerInfo) (p : StockScreenerParams)
    (hpe : p.use_pe = true)
    (h : info.trailingPE = none ∨ info.trailingPE = some 0 ∨
      ∃ v, info.trailingPE = some v ∧ v < 0) :
    process_single_stock symbol df info p = none := by
  have hv : peValOf info ≤ 0 := by
    rcases h with h | h | ⟨v, hv0, hneg⟩
    · simp [peValOf, h]
    · simp [peValOf, h]
    · rw [peValOf, hv0]
      simp only [if_neg (ne_of_lt hneg)]
      exact hneg.le
  rcases df with _ | bars
  · rfl
  · unfold process_single_stock
    apply ite_none_none
    apply ite_none_none
    apply ite_none_none
    apply ite_none_none
    apply ite_none_none
    rw [if_pos]
    exact ⟨hpe, Or.inl hv⟩

/-- Witness for `pe_nonpositive_excluded`: trailing P/E −5 is excluded
even though the configured bounds are `pe_min = −10 ≤ −5 ≤ 30 = pe_max`. -/
theorem pe_nonpositive_excluded_witness :
    process_single_stock "AAPL" (some twoBars)
      { sampleInfo with trailingPE := some (-5) }
      { allOffParams with use_pe := true, pe_min := -10 } = none :=
  pe_nonpositive_excluded "AAPL" (some twoBars)
    { sampleInfo with trailingPE := some (-5) }
    { allOffParams with use_pe := true, pe_min := -10 } rfl
    (Or.inr (Or.inr ⟨-5, rfl, by norm_num⟩))

end Retrotrade
